import Mathlib

/-!
Verification of the select-start-api leaderboard aggregation and caching engine.

The repository is a small read-oriented aggregation API (several iterative
drafts of the same Express endpoints).  Below, each endpoint's computation is
shallowly embedded as executable Lean definitions, translated from the
JavaScript source:

* `standalone-api.js` — the standalone server (cache checks, monthly/yearly
  leaderboards, nominations, admin force-update);
* `src/unnamed/part_000` and `src/unnamed/part_001` — two further drafts of
  the standalone server (per-user guards, force-refresh flags, dense-rank
  assignment);
* `api/leaderboard.js`, `api/nominations.js`, `pages/api/nominations.js` —
  serverless-style drafts (catch-branch fallbacks, carrd grouping,
  getCurrentNominations).

JavaScript numbers holding point totals, counts and ranks are modelled as
`Nat` (the stored progress values are small non-negative integers); wall-clock
timestamps in milliseconds are modelled as `Int` (a `Date` difference in JS
can be negative).  Map objects preserving insertion order are modelled as
association lists.  Fallible code paths (a thrown TypeError, a failed store
query) are modelled with `Except`/`Option`.
-/

deriving instance DecidableEq for Except

namespace SelectStart

/-! ## Freshness cache (standalone-api.js lines 134-147, 185-201, 317-323, 396-402)

A cache entry holds two independently nullable fields, exactly as in the
source object `{ data: null, lastUpdated: null }`.  `lastUpdated` is a
millisecond timestamp. -/

structure CacheEntry (α : Type) where
  data : Option α
  lastUpdated : Option Int
  deriving Repr, DecidableEq

/-- The empty cache entry `{ data: null, lastUpdated: null }`. -/
def CacheEntry.empty {α : Type} : CacheEntry α := ⟨none, none⟩

/-- Outcome of the cache check at the top of a report handler: either the
handler returns the cached payload unchanged, or it falls through to
recomputation. -/
inductive ServeResult (α : Type) where
  | cached (payload : α)
  | recompute
  deriving Repr, DecidableEq

/-- `standalone-api.js` cache check, e.g. lines 188-191:
`if (cache.monthly.data && cache.monthly.lastUpdated && (new Date() - cache.monthly.lastUpdated) < threshold) return res.json(cache.monthly.data);`.

A hit requires both fields non-null and the age strictly below the
threshold; otherwise the handler recomputes. -/
def checkCache {α : Type} (e : CacheEntry α) (now threshold : Int) : ServeResult α :=
  match e.data, e.lastUpdated with
  | some d, some t => if now - t < threshold then .cached d else .recompute
  | _, _ => .recompute

/-- Monthly threshold, `15 * 60 * 1000` ms (standalone-api.js line 189). -/
def monthlyThresholdMs : Int := 15 * 60 * 1000

/-- Yearly threshold, `30 * 60 * 1000` ms (standalone-api.js line 321). -/
def yearlyThresholdMs : Int := 30 * 60 * 1000

/-- Nominations threshold, `10 * 60 * 1000` ms (standalone-api.js line 400). -/
def nominationsThresholdMs : Int := 10 * 60 * 1000

/-! ## Force-refresh flows (part_001 lines 186-194 and 345-353, part_000 lines 499-511)

Each serve function returns the decision together with the cache entry's
state at the moment the decision is taken (i.e. at the start of any
recomputation). -/

/-- Monthly endpoint of `src/unnamed/part_001`, lines 186-194:
`const forceRefresh = req.query.refresh === 'true';`
`if (!forceRefresh && cache.monthly.data && ... < 15*60*1000) return res.json(cache.monthly.data);`
The flag only bypasses the check; the entry is not cleared before
recomputation. -/
def monthlyServe001 {α : Type} (forceRefresh : Bool) (c : CacheEntry α) (now : Int) :
    ServeResult α × CacheEntry α :=
  if forceRefresh then (.recompute, c)
  else (checkCache c now monthlyThresholdMs, c)

/-- Yearly endpoint of `src/unnamed/part_001`, lines 345-353: the handler
reads no refresh flag at all; the `forceRefresh` argument models the query
parameter that the code ignores. -/
def yearlyServe001 {α : Type} (_forceRefresh : Bool) (c : CacheEntry α) (now : Int) :
    ServeResult α × CacheEntry α :=
  (checkCache c now yearlyThresholdMs, c)

/-- Nominations endpoint of `src/unnamed/part_000`, lines 499-511:
`if (forceRefresh) { cache.nominations.data = null; cache.nominations.lastUpdated = null; }`
followed by the (now necessarily missing) cache check. -/
def nominationsServe000 {α : Type} (forceRefresh : Bool) (c : CacheEntry α) (now : Int) :
    ServeResult α × CacheEntry α :=
  let c1 := if forceRefresh then CacheEntry.empty else c
  if forceRefresh then (.recompute, c1)
  else (checkCache c1 now nominationsThresholdMs, c1)

/-! ## Admin force-update (standalone-api.js lines 487-523) -/

/-- The three cache slots of the standalone server. -/
structure Cache (α β γ : Type) where
  monthly : CacheEntry α
  yearly : CacheEntry β
  nominations : CacheEntry γ
  deriving Repr, DecidableEq

/-- `POST /api/admin/force-update` body of standalone-api.js lines 487-523:
validates `target ∈ {all, leaderboards, nominations}` (else a 400 error,
modelled as `none`), then clears the monthly and yearly entries when the
target is `all` or `leaderboards`, and the nominations entry when the target
is `all` or `nominations`. -/
def forceUpdate {α β γ : Type} (target : String) (c : Cache α β γ) : Option (Cache α β γ) :=
  if target ≠ "all" ∧ target ≠ "leaderboards" ∧ target ≠ "nominations" then none
  else
    let c1 := if target = "all" ∨ target = "leaderboards" then
        { c with monthly := CacheEntry.empty, yearly := CacheEntry.empty }
      else c
    let c2 := if target = "all" ∨ target = "nominations" then
        { c1 with nominations := CacheEntry.empty }
      else c1
    some c2

end SelectStart

namespace SelectStart

/-! ## Monthly ranking engine (part_001 lines 185-342, part_000 lines 171-326)

The per-month record stored by the external bot inside the user's
`monthlyChallenges` / `shadowChallenges` maps.  Every field may be absent in
an individual record; the JS code defaults each with `|| 0`, `|| null`, etc.,
so each field is an `Option`. -/

structure MonthData where
  progress : Option Nat
  achievements : Option Nat
  totalAchievements : Option Nat
  percentage : Option Nat
  gameTitle : Option String
  gameIconUrl : Option String
  deriving Repr, DecidableEq

/-- The fields of the `Challenge` document used by the leaderboard
computations (challengeSchema, part_001 lines 80-93). -/
structure Challenge where
  monthly_challange_gameid : String
  monthly_challange_game_total : Nat
  shadow_challange_gameid : String
  shadow_challange_revealed : Bool
  deriving Repr, DecidableEq

/-- A user document as read by the monthly endpoints.  `monthlyChallenges`
and `shadowChallenges` are Mongo `Map`s (modelled as insertion-ordered
association lists); `none` models a document where the field is missing or
not a Map, in which case a JS `.get` call on it throws a TypeError. -/
structure MUser where
  raUsername : String
  discordId : String
  monthlyChallenges : Option (List (String × MonthData))
  shadowChallenges : Option (List (String × MonthData))
  deriving Repr, DecidableEq

/-- A thrown JS exception (the only kind the embedded code can raise is the
TypeError from calling `.get` on a missing/non-Map field). -/
inductive JsError where
  | typeError
  deriving Repr, DecidableEq

/-- One leaderboard row as pushed by part_001 lines 249-263 (identical in
part_000 lines 243-257). -/
structure LeaderboardEntry where
  username : String
  discordId : String
  monthlyPoints : Nat
  shadowPoints : Nat
  totalPoints : Nat
  percentage : Nat
  achieved : Nat
  achievements : Nat
  totalAchievements : Nat
  gameTitle : String
  gameIconUrl : Option String
  deriving Repr, DecidableEq

/-- A leaderboard row after the rank-assignment pass (`leaderboard[i].rank =
currentRank`, part_001 line 287). -/
structure RankedEntry where
  entry : LeaderboardEntry
  rank : Nat
  deriving Repr, DecidableEq

/-- Per-user step of the part_001 monthly loop (lines 227-264): reads
`user.monthlyChallenges.get(monthKey) || {}` (throws when the map is
missing), reads the shadow map only when the shadow challenge is revealed
(line 235), skips the user when `totalPoints === 0` (lines 243-246), and
otherwise builds the row of lines 249-263. -/
def processUser001 (ch : Challenge) (monthKey : String) (u : MUser) :
    Except JsError (Option LeaderboardEntry) :=
  match u.monthlyChallenges with
  | none => .error .typeError
  | some mc =>
    let monthlyData : Option MonthData := List.lookup monthKey mc
    let monthlyPoints := (monthlyData.bind (·.progress)).getD 0
    let shadowStep : Except JsError Nat :=
      if ch.shadow_challange_revealed then
        match u.shadowChallenges with
        | none => .error .typeError
        | some sc => .ok (((List.lookup monthKey sc).bind (·.progress)).getD 0)
      else .ok 0
    match shadowStep with
    | .error e => .error e
    | .ok shadowPoints =>
      let totalPoints := monthlyPoints + shadowPoints
      if totalPoints = 0 then .ok none
      else .ok (some
        { username := u.raUsername
          discordId := u.discordId
          monthlyPoints := monthlyPoints
          shadowPoints := shadowPoints
          totalPoints := totalPoints
          percentage := (monthlyData.bind (·.percentage)).getD 0
          achieved := (monthlyData.bind (·.achievements)).getD 0
          achievements := (monthlyData.bind (·.achievements)).getD 0
          totalAchievements :=
            (monthlyData.bind (·.totalAchievements)).getD ch.monthly_challange_game_total
          gameTitle := (monthlyData.bind (·.gameTitle)).getD "Unknown Game"
          gameIconUrl := monthlyData.bind (·.gameIconUrl) })

/-- The part_001 per-user loop (`for (const user of users)`, line 227): a
thrown TypeError escapes the loop and reaches the outer catch, aborting the
whole computation. -/
def buildEntries001 (ch : Challenge) (monthKey : String) :
    List MUser → Except JsError (List LeaderboardEntry)
  | [] => .ok []
  | u :: rest =>
    match processUser001 ch monthKey u with
    | .error e => .error e
    | .ok none => buildEntries001 ch monthKey rest
    | .ok (some entry) => (buildEntries001 ch monthKey rest).map (entry :: ·)

/-- Per-user step of the part_000 monthly loop (lines 211-262): the body is
wrapped in a per-user try/catch and every map access is guarded
(`user.monthlyChallenges && user.monthlyChallenges instanceof Map &&
user.monthlyChallenges.has(monthKey)`), so a malformed record yields zero
points instead of throwing; a zero-total user is skipped. -/
def processUser000 (ch : Challenge) (monthKey : String) (u : MUser) :
    Option LeaderboardEntry :=
  let monthlyData : Option MonthData :=
    match u.monthlyChallenges with
    | some mc => List.lookup monthKey mc
    | none => none
  let monthlyPoints := (monthlyData.bind (·.progress)).getD 0
  let shadowPoints :=
    if ch.shadow_challange_revealed then
      match u.shadowChallenges with
      | some sc => ((List.lookup monthKey sc).bind (·.progress)).getD 0
      | none => 0
    else 0
  let totalPoints := monthlyPoints + shadowPoints
  if totalPoints = 0 then none
  else some
    { username := u.raUsername
      discordId := u.discordId
      monthlyPoints := monthlyPoints
      shadowPoints := shadowPoints
      totalPoints := totalPoints
      percentage := (monthlyData.bind (·.percentage)).getD 0
      achieved := (monthlyData.bind (·.achievements)).getD 0
      achievements := (monthlyData.bind (·.achievements)).getD 0
      totalAchievements :=
        (monthlyData.bind (·.totalAchievements)).getD ch.monthly_challange_game_total
      gameTitle := (monthlyData.bind (·.gameTitle)).getD "Unknown Game"
      gameIconUrl := monthlyData.bind (·.gameIconUrl) }

/-- The part_000 monthly loop: every user is processed; a skipped (malformed
or zero-total) user simply contributes no row. -/
def buildEntries000 (ch : Challenge) (monthKey : String) (users : List MUser) :
    List LeaderboardEntry :=
  users.filterMap (processUser000 ch monthKey)

/-- Weak lexicographic order on (totalPoints, achieved), descending: `lexLE p
q` reads "p is at most q". -/
def lexLE (p q : Nat × Nat) : Prop := p.1 < q.1 ∨ (p.1 = q.1 ∧ p.2 ≤ q.2)

/-- Strict lexicographic order on (totalPoints, achieved). -/
def lexLT (p q : Nat × Nat) : Prop := p.1 < q.1 ∨ (p.1 = q.1 ∧ p.2 < q.2)

/-- The sort key of a leaderboard row. -/
def entryKey (e : LeaderboardEntry) : Nat × Nat := (e.totalPoints, e.achieved)

/-- The part_001 comparator (lines 267-272): `a` may precede `b` iff `b`'s
key is at most `a`'s (descending totalPoints, ties by descending achieved). -/
def lbRel (a b : LeaderboardEntry) : Prop := lexLE (entryKey b) (entryKey a)

instance : DecidableRel lbRel := fun a b => by
  unfold lbRel lexLE
  infer_instance

instance : IsTotal LeaderboardEntry lbRel :=
  ⟨fun a b => by
    unfold lbRel lexLE entryKey
    omega⟩

instance : IsTrans LeaderboardEntry lbRel :=
  ⟨fun a b c hab hbc => by
    unfold lbRel lexLE entryKey at *
    omega⟩

/-- The tie-handling pass of part_001 lines 274-289, with state
(`currentRank`, `currentPoints`, `currentAchieved`, `usersProcessed`). -/
def rankLoop (currentRank curPts curAch processed : Nat) :
    List LeaderboardEntry → List RankedEntry
  | [] => []
  | e :: rest =>
    if e.totalPoints < curPts ∨ (e.totalPoints = curPts ∧ e.achieved < curAch) then
      ⟨e, processed + 1⟩ :: rankLoop (processed + 1) e.totalPoints e.achieved (processed + 1) rest
    else
      ⟨e, currentRank⟩ :: rankLoop currentRank curPts curAch (processed + 1) rest

/-- Rank assignment (part_001 lines 274-289): the state starts at rank 1
with the keys of the first entry (`leaderboard.length > 0 ?
leaderboard[0].totalPoints : 0`). -/
def assignRanks : List LeaderboardEntry → List RankedEntry
  | [] => []
  | e0 :: rest => rankLoop 1 e0.totalPoints e0.achieved 0 (e0 :: rest)

/-- The full part_001 monthly pipeline: build the rows, sort them with the
comparator of lines 267-272 (JS `Array.prototype.sort` is stable; modelled
with the stable `List.insertionSort`), then assign ranks. -/
def monthlyLeaderboard001 (ch : Challenge) (monthKey : String) (users : List MUser) :
    Except JsError (List RankedEntry) :=
  (buildEntries001 ch monthKey users).map (fun l => assignRanks (List.insertionSort lbRel l))

/-- The part_000 monthly comparator (line 267): `sort((a, b) =>
b.totalPoints - a.totalPoints)` compares total points only — no achieved
tie-break. -/
def lbRelTotal (a b : LeaderboardEntry) : Prop := b.totalPoints ≤ a.totalPoints

instance : DecidableRel lbRelTotal := fun a b => by
  unfold lbRelTotal
  infer_instance

instance : IsTotal LeaderboardEntry lbRelTotal :=
  ⟨fun a b => by
    unfold lbRelTotal
    omega⟩

instance : IsTrans LeaderboardEntry lbRelTotal :=
  ⟨fun a b c hab hbc => by
    unfold lbRelTotal at *
    omega⟩

/-- The full part_000 monthly pipeline (lines 208-267): guarded build, then
sort by total points descending only (JS `Array.prototype.sort` is stable;
modelled with the stable `List.insertionSort`).  This draft assigns no
ranks. -/
def monthlyLeaderboard000 (ch : Challenge) (monthKey : String) (users : List MUser) :
    List LeaderboardEntry :=
  List.insertionSort lbRelTotal (buildEntries000 ch monthKey users)

/-! ## Monthly leaderboard of standalone-api.js (lines 185-314)

This draft assumes the challenge maps are present on every user document. -/

structure SAUser where
  raUsername : String
  discordId : String
  monthlyChallenges : List (String × MonthData)
  shadowChallenges : List (String × MonthData)
  deriving Repr, DecidableEq

/-- One row of the standalone-api.js monthly leaderboard (lines 248-257). -/
structure SAEntry where
  username : String
  discordId : String
  monthlyPoints : Nat
  shadowPoints : Nat
  totalPoints : Nat
  percentage : Nat
  achieved : Nat
  total : Nat
  deriving Repr, DecidableEq

/-- Row construction of standalone-api.js lines 230-258:
`user.monthlyChallenges.get(monthKey)?.progress || 0`, shadow points only
when revealed, `Math.round((totalPoints / 3) * 100)` (exact rational
rounding, `⌊(200·t + 3) / 6⌋`) and `Math.floor(totalPoints *
totalAchievements / 3)`. -/
def mkSAEntry (ch : Challenge) (monthKey : String) (u : SAUser) : SAEntry :=
  let monthlyPoints := ((List.lookup monthKey u.monthlyChallenges).bind (·.progress)).getD 0
  let shadowPoints :=
    if ch.shadow_challange_revealed then
      ((List.lookup monthKey u.shadowChallenges).bind (·.progress)).getD 0
    else 0
  let totalPoints := monthlyPoints + shadowPoints
  let totalAchievements := ch.monthly_challange_game_total
  { username := u.raUsername
    discordId := u.discordId
    monthlyPoints := monthlyPoints
    shadowPoints := shadowPoints
    totalPoints := totalPoints
    percentage := if 0 < totalAchievements then (200 * totalPoints + 3) / 6 else 0
    achieved := totalPoints * totalAchievements / 3
    total := totalAchievements }

/-- The standalone-api.js comparator (line 264) sorts by totalPoints only. -/
def saRel (a b : SAEntry) : Prop := b.totalPoints ≤ a.totalPoints

instance : DecidableRel saRel := fun a b => by
  unfold saRel
  infer_instance

instance : IsTotal SAEntry saRel :=
  ⟨fun a b => by
    unfold saRel
    omega⟩

instance : IsTrans SAEntry saRel :=
  ⟨fun a b c hab hbc => by
    unfold saRel at *
    omega⟩

/-- standalone-api.js monthly pipeline, lines 230-264: map every user to a
row, drop rows with `totalPoints > 0` false (line 261), sort by totalPoints
descending (lines 263-264).  No rank field is assigned in this draft. -/
def monthlyLeaderboardSA (ch : Challenge) (monthKey : String) (users : List SAUser) :
    List SAEntry :=
  List.insertionSort saRel
    ((users.map (mkSAEntry ch monthKey)).filter (fun e => 0 < e.totalPoints))

/-! ## Yearly accumulation (part_001 lines 345-489)

This draft iterates `user.monthlyChallenges.entries()` directly, so the maps
are plain association lists here; community awards carry stored points and
the award instant's calendar year (`award.awardedAt.getFullYear()`). -/

structure Award where
  points : Nat
  awardedYear : Nat
  deriving Repr, DecidableEq

structure YUser where
  raUsername : String
  discordId : String
  monthlyChallenges : List (String × MonthData)
  shadowChallenges : List (String × MonthData)
  communityAwards : List Award
  deriving Repr, DecidableEq

/-- `String.startsWith`, embedded as a character-list prefix test (JS
`key.startsWith(currentYear.toString())`). -/
def strStartsWith (s p : String) : Bool := List.isPrefixOf p.data s.data

/-- The cumulative per-user stats tracked by part_001 lines 379-430. -/
structure YearStats where
  yearlyPoints : Nat
  masteryCount : Nat
  beatenCount : Nat
  participationCount : Nat
  shadowBeatenCount : Nat
  shadowParticipationCount : Nat
  deriving Repr, DecidableEq

/-- One step of the monthly-challenge loop of part_001 lines 387-398: a
record contributes its progress (and one tier tally) iff its key starts with
the requested year's decimal string. -/
def monthlyYearStep (yStr : String) (st : YearStats) (kv : String × MonthData) : YearStats :=
  if strStartsWith kv.1 yStr then
    let progress := kv.2.progress.getD 0
    { st with
      yearlyPoints := st.yearlyPoints + progress
      masteryCount := if progress = 3 then st.masteryCount + 1 else st.masteryCount
      beatenCount :=
        if progress ≠ 3 ∧ progress = 2 then st.beatenCount + 1 else st.beatenCount
      participationCount :=
        if progress ≠ 3 ∧ progress ≠ 2 ∧ progress = 1 then st.participationCount + 1
        else st.participationCount }
  else st

/-- One step of the shadow-challenge loop of part_001 lines 401-411 (no
mastery tier for shadow). -/
def shadowYearStep (yStr : String) (st : YearStats) (kv : String × MonthData) : YearStats :=
  if strStartsWith kv.1 yStr then
    let progress := kv.2.progress.getD 0
    { st with
      yearlyPoints := st.yearlyPoints + progress
      shadowBeatenCount := if progress = 2 then st.shadowBeatenCount + 1 else st.shadowBeatenCount
      shadowParticipationCount :=
        if progress ≠ 2 ∧ progress = 1 then st.shadowParticipationCount + 1
        else st.shadowParticipationCount }
  else st

/-- `getCommunityPointsForYear` (part_001 lines 68-78): filter the awards to
the requested calendar year, then sum their stored points. -/
def getCommunityPointsForYear (u : YUser) (year : Nat) : Nat :=
  ((u.communityAwards.filter (fun a => a.awardedYear = year)).map (·.points)).sum

/-- Per-user yearly accumulation of part_001 lines 377-431: fold the
monthly map, then the shadow map, then add the community points. -/
def yearStats001 (year : Nat) (u : YUser) : YearStats :=
  let afterMonthly := u.monthlyChallenges.foldl (monthlyYearStep (toString year)) ⟨0, 0, 0, 0, 0, 0⟩
  let afterShadow := u.shadowChallenges.foldl (shadowYearStep (toString year)) afterMonthly
  { afterShadow with
    yearlyPoints := afterShadow.yearlyPoints + getCommunityPointsForYear u year }

/-- The yearly points of a user, as reported in the part_001 payload. -/
def yearlyPoints001 (year : Nat) (u : YUser) : Nat := (yearStats001 year u).yearlyPoints

/-! ## Nominations aggregation, standalone drafts (part_001 lines 492-580)

In the standalone servers the Mongoose schema guarantees `nominatedAt` is a
`Date`; only its calendar month and year are consulted, so a record carries
them directly. -/

structure NomRecord where
  gameId : String
  gameTitle : Option String
  consoleName : Option String
  month : Nat
  year : Nat
  deriving Repr, DecidableEq

structure NomUser where
  raUsername : String
  discordId : String
  nominations : List NomRecord
  deriving Repr, DecidableEq

/-- One flat row of the `nominations` array (part_001 lines 522-528). -/
structure FlatNom where
  username : String
  gameId : String
  gameTitle : String
  consoleName : String
  month : Nat
  year : Nat
  deriving Repr, DecidableEq

/-- One entry of the `nominationsByGame` map (part_001 lines 531-539). -/
structure GameEntry where
  gameId : String
  gameTitle : String
  consoleName : String
  count : Nat
  nominatedBy : List String
  deriving Repr, DecidableEq

/-- The current-month (username, nomination) pairs in user-then-nomination
order, as visited by the nested loops of part_001 lines 512-520. -/
def currentNomPairs (users : List NomUser) (m y : Nat) : List (String × NomRecord) :=
  (users.map (fun u =>
    (u.nominations.filter (fun n => n.month == m && n.year == y)).map
      (fun n => (u.raUsername, n)))).flatten

/-- The flat `nominations` list (part_001 lines 522-528). -/
def nominationsFlat (users : List NomUser) (m y : Nat) : List FlatNom :=
  (currentNomPairs users m y).map (fun p =>
    ⟨p.1, p.2.gameId, p.2.gameTitle.getD "Unknown Game",
      p.2.consoleName.getD "Unknown Console", p.2.month, p.2.year⟩)

/-- The mutation applied to the matching map entry at part_001 lines
541-545: `count` is incremented for every nomination, while the username is
pushed only if not yet present. -/
def bumpGame (username gameId : String) (g : GameEntry) : GameEntry :=
  if g.gameId == gameId then
    { g with
      count := g.count + 1
      nominatedBy :=
        if g.nominatedBy.contains username then g.nominatedBy
        else g.nominatedBy ++ [username] }
  else g

/-- One iteration of the popularity tracking (part_001 lines 530-546):
create the game's map entry if absent (lines 531-539), then apply the
mutation of lines 541-545 to the game's entry. -/
def addNomToGames (st : List GameEntry) (username : String) (nom : NomRecord) :
    List GameEntry :=
  (if st.any (fun g => g.gameId == nom.gameId) then st
   else st ++ [⟨nom.gameId, nom.gameTitle.getD "Unknown Game",
     nom.consoleName.getD "Unknown Console", 0, []⟩]).map
    (bumpGame username nom.gameId)

/-- The `nominationsByGame` map as an insertion-ordered list (the JS `Map`
preserves insertion order). -/
def nominationsByGame (users : List NomUser) (m y : Nat) : List GameEntry :=
  (currentNomPairs users m y).foldl (fun st p => addNomToGames st p.1 p.2) []

/-- `count` of a game in the popularity map (`0` when absent). -/
def countOfGame (gameId : String) (st : List GameEntry) : Nat :=
  ((st.find? (fun g => g.gameId == gameId)).map (·.count)).getD 0

/-! ## Nominations, carrd grouping draft (api/nominations.js lines 36-108) -/

/-- One element of `allNominations` in the carrd draft (lines 55-62); the
`gameTitle` has already been defaulted with `nom.gameTitle || nom.gameId`
when the row was built, so the group key `nom.gameTitle || nom.gameId`
computed at line 73 is just this field. -/
structure CarrdNom where
  gameId : String
  gameTitle : String
  consoleName : String
  discordUsername : String
  discordId : String
  deriving Repr, DecidableEq

/-- One group of `gameGroups` (api/nominations.js lines 74-81). -/
structure GameGroup where
  title : String
  gameId : String
  platform : String
  nominatedBy : List String
  count : Nat
  deriving Repr, DecidableEq

/-- The mutation applied to the matching group at api/nominations.js lines
84-87: the username is pushed and `count` incremented only when this user
has not yet nominated the game. -/
def bumpCarrd (username gameKey : String) (g : GameGroup) : GameGroup :=
  if g.title == gameKey then
    if g.nominatedBy.contains username then g
    else { g with
      nominatedBy := g.nominatedBy ++ [username]
      count := g.count + 1 }
  else g

/-- One iteration of the carrd grouping (api/nominations.js lines 72-88):
create the group if absent (lines 74-81), then apply the mutation of lines
84-87 to the matching group. -/
def addCarrd (st : List GameGroup) (nom : CarrdNom) : List GameGroup :=
  (if st.any (fun g => g.title == nom.gameTitle) then st
   else st ++ [⟨nom.gameTitle, nom.gameId, nom.consoleName, [], 0⟩]).map
    (bumpCarrd nom.discordUsername nom.gameTitle)

/-- The carrd `gameGroups` object as an insertion-ordered list. -/
def gameGroups (noms : List CarrdNom) : List GameGroup := noms.foldl addCarrd []

/-- `count` of a group key in the carrd grouping (`0` when absent). -/
def countOfKey (key : String) (st : List GameGroup) : Nat :=
  ((st.find? (fun g => g.title == key)).map (·.count)).getD 0

/-- `nominatedBy` of a group key in the carrd grouping (`[]` when absent). -/
def usersOfKey (key : String) (st : List GameGroup) : List String :=
  ((st.find? (fun g => g.title == key)).map (·.nominatedBy)).getD []

/-- Append a username only if not already present — the accumulated effect
of api/nominations.js lines 84-87 on a group's nominator list. -/
def dedupInsert (acc : List String) (u : String) : List String :=
  if u ∈ acc then acc else acc ++ [u]

/-! ## getCurrentNominations (api/nominations.js lines 139-164,
pages/api/nominations.js lines 181-204) -/

/-- The `nominatedAt` field of a raw nomination document: absent, present
but not a `Date` instance, or a valid `Date` (only the calendar month and
year are consulted). -/
inductive NomDate where
  | missing
  | notDate
  | date (month year : Nat)
  deriving Repr, DecidableEq

structure CNom where
  gameId : String
  gameTitle : Option String
  consoleName : Option String
  nominatedAt : NomDate
  deriving Repr, DecidableEq

/-- A user document as read by the getCurrentNominations drafts;
`nominations = none` models a document whose field is missing or not an
array. -/
structure CUser where
  raUsername : String
  discordId : String
  nominations : Option (List CNom)
  deriving Repr, DecidableEq

/-- `getCurrentNominations` (api/nominations.js lines 139-164): returns `[]`
when the nominations field is missing or not an array, filters out records
whose `nominatedAt` is missing or not a `Date`, and keeps exactly the
records whose calendar month and year match the reference clock. -/
def getCurrentNominations (u : CUser) (currentMonth currentYear : Nat) : List CNom :=
  match u.nominations with
  | none => []
  | some noms =>
    noms.filter (fun nom =>
      match nom.nominatedAt with
      | .date m y => m == currentMonth && y == currentYear
      | _ => false)

/-! ## Catch-branch responses on store failure (C8)

Each read handler catches a thrown store/query error; the models below
record the HTTP status and payload each draft produces in that branch. -/

/-- One hardcoded ranking row of api/leaderboard.js lines 49-71/111-133. -/
structure RankRow where
  username : String
  achieved : Nat
  percentage : String
  award : String
  points : Nat
  deriving Repr, DecidableEq

/-- The hardcoded rankings of api/leaderboard.js (first draft). -/
def hardcodedRankings : List RankRow :=
  [⟨"muttonchopmc", 7, "10.29", "🏁", 1⟩,
   ⟨"hyperlincs", 5, "7.35", "🏁", 1⟩,
   ⟨"xelxlolox", 1, "1.47", "🏁", 1⟩]

structure LbResponse where
  status : Nat
  rankings : List RankRow
  deriving Repr, DecidableEq

/-- api/leaderboard.js (first draft) catch branch, lines 97-135: on any
thrown error the handler returns HTTP 200 with the hardcoded rankings. -/
def apiLeaderboardOnStoreFailure : LbResponse := ⟨200, hardcodedRankings⟩

structure CarrdResponse where
  status : Nat
  totalNominations : Nat
  uniqueGames : Nat
  nominatedGroups : List GameGroup
  deriving Repr, DecidableEq

/-- api/nominations.js (second draft) catch branch, lines 274-283: HTTP 200
with an empty payload presented as success. -/
def apiNominationsOnStoreFailure : CarrdResponse := ⟨200, 0, 0, []⟩

/-- One mock group of pages/api/nominations.js lines 150-167. -/
structure MockGroup where
  title : String
  gameId : String
  nominationCount : Nat
  nominatedBy : List String
  deriving Repr, DecidableEq

structure MockResponse where
  status : Nat
  totalNominations : Nat
  uniqueGames : Nat
  mockGroups : List MockGroup
  deriving Repr, DecidableEq

/-- pages/api/nominations.js catch branch (carrd format), lines 142-169:
HTTP 200 with fabricated mock nominations. -/
def pagesNominationsOnStoreFailure : MockResponse :=
  ⟨200, 3, 2,
    [⟨"Chrono Trigger", "12345", 2, ["User1", "User3"]⟩,
     ⟨"Final Fantasy VII", "67890", 1, ["User2"]⟩]⟩

structure ErrorResponse where
  status : Nat
  error : String
  deriving Repr, DecidableEq

/-- standalone-api.js monthly catch branch, lines 307-313: HTTP 500 with an
error body and no payload. -/
def standaloneMonthlyOnStoreFailure : ErrorResponse := ⟨500, "Internal server error"⟩

/-- standalone-api.js yearly catch branch, lines 386-392. -/
def standaloneYearlyOnStoreFailure : ErrorResponse := ⟨500, "Internal server error"⟩

/-- standalone-api.js nominations catch branch, lines 477-483. -/
def standaloneNominationsOnStoreFailure : ErrorResponse := ⟨500, "Internal server error"⟩

/-! ## Concrete example data used by counterexamples and witnesses -/

def exMD : MonthData := ⟨some 3, some 5, none, some 50, none, none⟩

def exMDCarl : MonthData := ⟨some 1, some 2, none, none, none, none⟩

def exCh : Challenge := ⟨"g1", 10, "s1", false⟩

def exKey : String := "2025-04-01"

def exAlice : MUser := ⟨"alice", "d1", some [(exKey, exMD)], some []⟩

def exCarl : MUser := ⟨"carl", "d3", some [(exKey, exMDCarl)], some []⟩

def exBadBob : MUser := ⟨"bob", "d2", none, none⟩

def exUsers : List MUser := [exAlice, exCarl]

/-- The row part_001 builds for `exAlice`. -/
def exAliceEntry : LeaderboardEntry :=
  ⟨"alice", "d1", 3, 0, 3, 50, 5, 5, 10, "Unknown Game", none⟩

/-- The row part_001 builds for `exCarl`. -/
def exCarlEntry : LeaderboardEntry :=
  ⟨"carl", "d3", 1, 0, 1, 0, 2, 2, 10, "Unknown Game", none⟩

/-- The ranked output of part_001 on `exUsers`. -/
def exOut : List RankedEntry := [⟨exAliceEntry, 1⟩, ⟨exCarlEntry, 2⟩]

/-- Two users tied on total points (progress 3 each) with achieved counts
2 and 5, in that encounter order. -/
def exMDTieLow : MonthData := ⟨some 3, some 2, none, none, none, none⟩

def exMDTieHigh : MonthData := ⟨some 3, some 5, none, none, none, none⟩

def exTieLow : MUser := ⟨"dana", "d4", some [(exKey, exMDTieLow)], some []⟩

def exTieHigh : MUser := ⟨"erin", "d5", some [(exKey, exMDTieHigh)], some []⟩

/-- The row part_000 builds for `exTieLow`. -/
def exTieLowEntry : LeaderboardEntry :=
  ⟨"dana", "d4", 3, 0, 3, 0, 2, 2, 10, "Unknown Game", none⟩

/-- The row part_000 builds for `exTieHigh`. -/
def exTieHighEntry : LeaderboardEntry :=
  ⟨"erin", "d5", 3, 0, 3, 0, 5, 5, 10, "Unknown Game", none⟩

/-- A user who nominated the same game twice in the current period. -/
def exNomUser : NomUser :=
  ⟨"alice", "d1",
    [⟨"g1", some "Game One", some "SNES", 3, 2025⟩,
     ⟨"g1", some "Game One", some "SNES", 3, 2025⟩]⟩

def exCNom : CNom := ⟨"g1", some "Game One", some "SNES", .date 3 2025⟩

/-- A user with one in-year monthly record, for the yearly witnesses. -/
def exYUser : YUser := ⟨"alice", "d1", [("2025-04-01", exMD)], [], []⟩

def exCUser : CUser := ⟨"alice", "d1", some [exCNom, ⟨"g2", none, none, .missing⟩]⟩

/-- Dense-competition specification for every position after the first:
`pos` is the 0-based position of the next element, `prevRank`/`prevKeys` are
the rank and sort key of its predecessor.  Each element's rank equals its
predecessor's iff it matches the predecessor on both sort keys, and
otherwise equals its 1-based position. -/
def denseFrom (pos prevRank : Nat) (prevKeys : Nat × Nat) : List RankedEntry → Prop
  | [] => True
  | r :: rest =>
    ((entryKey r.entry = prevKeys → r.rank = prevRank) ∧
     (entryKey r.entry ≠ prevKeys → r.rank = pos + 1) ∧
     (r.rank = prevRank ↔ entryKey r.entry = prevKeys)) ∧
    denseFrom (pos + 1) r.rank (entryKey r.entry) rest

/-- Dense-competition specification of the whole ranked output: the first
entry has rank 1 and every later entry obeys `denseFrom`. -/
def DenseRanked : List RankedEntry → Prop
  | [] => True
  | r :: rest => r.rank = 1 ∧ denseFrom 1 r.rank (entryKey r.entry) rest

/-! ## Theorems for the cache claims -/

/-- C3: for every report type (thresholds: monthly 15 min, yearly 30 min,
nominations 10 min), the cache check is a hit returning the stored payload
unchanged iff both fields of the entry are set and `now - lastComputed` is
strictly below the threshold, and a miss (recomputation) exactly when the
entry is empty or the age is at least the threshold. -/
theorem cache_get_fresh_iff {α : Type} (e : CacheEntry α) (now threshold : Int) :
    (∀ p : α, checkCache e now threshold = .cached p ↔
      (e.data = some p ∧ ∃ t, e.lastUpdated = some t ∧ now - t < threshold)) ∧
    (checkCache e now threshold = .recompute ↔
      (e.data = none ∨ e.lastUpdated = none ∨
        ∃ t, e.lastUpdated = some t ∧ threshold ≤ now - t)) ∧
    monthlyThresholdMs = 15 * 60000 ∧
    yearlyThresholdMs = 30 * 60000 ∧
    nominationsThresholdMs = 10 * 60000 := by
  refine ⟨?_, ?_, rfl, rfl, rfl⟩
  · intro p
    rcases e with ⟨d, t⟩
    rcases d with _ | d
    · simp [checkCache]
    · rcases t with _ | t
      · simp [checkCache]
      · simp only [checkCache]
        split_ifs with h
        · simp [h, eq_comm]
        · simp [h]
  · rcases e with ⟨d, t⟩
    rcases d with _ | d
    · simp [checkCache]
    · rcases t with _ | t
      · simp [checkCache]
      · simp only [checkCache]
        split_ifs with h
        · simp
          omega
        · simp
          omega

/-- C4 counterexample: with the force-refresh flag set and a fresh cache
entry `{data: 42, lastUpdated: 0}` at `now = 0`, the yearly endpoint of
part_001 serves the cached payload instead of recomputing (it never reads the
flag), and the monthly endpoint of part_001, although it does recompute,
leaves the cache entry unchanged (non-empty) at the start of the
recomputation instead of invalidating it first. -/
theorem forceRefresh_counterexample :
    yearlyServe001 true (⟨some 42, some 0⟩ : CacheEntry Nat) 0 = (.cached 42, ⟨some 42, some 0⟩) ∧
    (monthlyServe001 true (⟨some 42, some 0⟩ : CacheEntry Nat) 0).1 = .recompute ∧
    (monthlyServe001 true (⟨some 42, some 0⟩ : CacheEntry Nat) 0).2 ≠ CacheEntry.empty := by
  refine ⟨?_, rfl, ?_⟩ <;> decide

/-- C4 amended: with the force-refresh flag set, the nominations endpoint
(part_000) recomputes and empties its cache entry before recomputation, and
the monthly endpoint (part_001) recomputes but leaves its cache entry
unchanged; the yearly endpoint ignores the flag entirely, behaving
identically for every value of the flag (in particular it serves a fresh
cached payload even when the flag is set). -/
theorem forceRefresh_amended {α : Type} (c : CacheEntry α) (now : Int) :
    nominationsServe000 true c now = (.recompute, CacheEntry.empty) ∧
    monthlyServe001 true c now = (.recompute, c) ∧
    (∀ b : Bool, yearlyServe001 b c now = (checkCache c now yearlyThresholdMs, c)) :=
  ⟨rfl, rfl, fun _ => rfl⟩

/-- C5: an authorized, validated admin invalidation with `target = "all"`
empties all three cache entries; with `target = "nominations"` it empties
only the nominations entry, leaving the monthly and yearly entries' payloads
and timestamps untouched; and invalidating already-empty entries succeeds as
a no-op (the resulting state is a fixed point). -/
theorem admin_force_update_ok {α β γ : Type} (c : Cache α β γ) :
    forceUpdate "all" c = some ⟨CacheEntry.empty, CacheEntry.empty, CacheEntry.empty⟩ ∧
    forceUpdate "nominations" c = some ⟨c.monthly, c.yearly, CacheEntry.empty⟩ ∧
    forceUpdate "all" (⟨CacheEntry.empty, CacheEntry.empty, CacheEntry.empty⟩ : Cache α β γ) =
      some ⟨CacheEntry.empty, CacheEntry.empty, CacheEntry.empty⟩ ∧
    forceUpdate "nominations" (⟨c.monthly, c.yearly, CacheEntry.empty⟩ : Cache α β γ) =
      some ⟨c.monthly, c.yearly, CacheEntry.empty⟩ := by
  refine ⟨?_, ?_, ?_, ?_⟩ <;> simp [forceUpdate]

lemma lexLE_of_not_lt {p q : Nat × Nat} (h : ¬ lexLT p q) (hle : lexLE p q) : p = q := by
  unfold lexLT at h
  unfold lexLE at hle
  have h1 : p.1 = q.1 := by omega
  have h2 : p.2 = q.2 := by omega
  exact Prod.ext h1 h2

lemma lexLT_ne {p q : Nat × Nat} (h : lexLT p q) : p ≠ q := by
  unfold lexLT at h
  intro he
  rw [he] at h
  omega

/-- Underlying rows are preserved by the tie-handling pass. -/
lemma rankLoop_map_entry (cr cp ca pr : Nat) :
    ∀ l : List LeaderboardEntry, (rankLoop cr cp ca pr l).map (·.entry) = l := by
  intro l
  induction l generalizing cr cp ca pr with
  | nil => rfl
  | cons e rest ih =>
    unfold rankLoop
    split_ifs with h
    · simp [ih]
    · simp [ih]

/-- Underlying rows are preserved by rank assignment. -/
lemma assignRanks_map_entry (l : List LeaderboardEntry) :
    (assignRanks l).map (·.entry) = l := by
  cases l with
  | nil => rfl
  | cons e rest => exact rankLoop_map_entry 1 e.totalPoints e.achieved 0 (e :: rest)

/-- Invariant of the part_001 tie-handling loop: when the remaining list is
sorted, its head's key is at most the state key, and the carried rank is at
most the number of processed entries, the loop emits dense-competition
ranks. -/
lemma rankLoop_dense :
    ∀ (l : List LeaderboardEntry) (cr cp ca pr : Nat),
      List.Chain' lbRel l →
      (∀ e ∈ l.head?, lexLE (entryKey e) (cp, ca)) →
      cr ≤ pr →
      denseFrom pr cr (cp, ca) (rankLoop cr cp ca pr l) := by
  intro l
  induction l with
  | nil => intro cr cp ca pr _ _ _; trivial
  | cons e rest ih =>
    intro cr cp ca pr hchain hhead hcr
    have hle : lexLE (entryKey e) (cp, ca) := hhead e rfl
    have hchain' : List.Chain' lbRel rest := hchain.tail
    have hrest : ∀ e' ∈ rest.head?, lexLE (entryKey e') (entryKey e) := by
      intro e' he'
      cases rest with
      | nil => simp at he'
      | cons f fs =>
        simp only [List.head?_cons, Option.mem_def, Option.some.injEq] at he'
        subst he'
        exact List.chain'_cons.mp hchain |>.1
    unfold rankLoop
    split_ifs with h
    · have hlt : lexLT (entryKey e) (cp, ca) := by
        unfold lexLT entryKey
        unfold entryKey at h
        omega
      have hne : entryKey e ≠ (cp, ca) := lexLT_ne hlt
      refine ⟨⟨fun he => absurd he hne, fun _ => rfl, ?_⟩, ?_⟩
      · constructor
        · intro hr
          have hpr : pr + 1 = cr := by simpa using hr
          omega
        · intro he
          exact absurd he hne
      · have : denseFrom (pr + 1) (pr + 1) (entryKey e)
            (rankLoop (pr + 1) e.totalPoints e.achieved (pr + 1) rest) := by
          have := ih (pr + 1) e.totalPoints e.achieved (pr + 1) hchain'
            (by simpa [entryKey] using hrest) (Nat.le_refl _)
          simpa [entryKey] using this
        simpa using this
    · have hlt : ¬ lexLT (entryKey e) (cp, ca) := by
        unfold lexLT entryKey
        unfold entryKey at h
        omega
      have heq : entryKey e = (cp, ca) := lexLE_of_not_lt hlt hle
      refine ⟨⟨fun _ => rfl, fun hne => absurd heq hne, ?_⟩, ?_⟩
      · constructor
        · intro _
          exact heq
        · intro _
          rfl
      · have : denseFrom (pr + 1) cr (cp, ca) (rankLoop cr cp ca (pr + 1) rest) :=
          ih cr cp ca (pr + 1) hchain'
            (by
              intro e' he'
              have := hrest e' he'
              rw [heq] at this
              exact this)
            (Nat.le_succ_of_le hcr)
        rw [heq]
        exact this

/-- For a sorted input list, rank assignment yields dense-competition
ranks. -/
lemma assignRanks_dense (l : List LeaderboardEntry) (hs : List.Sorted lbRel l) :
    DenseRanked (assignRanks l) := by
  cases l with
  | nil => trivial
  | cons e rest =>
    unfold assignRanks
    unfold rankLoop
    have hfirst : ¬ (e.totalPoints < e.totalPoints ∨
        (e.totalPoints = e.totalPoints ∧ e.achieved < e.achieved)) := by omega
    rw [if_neg hfirst]
    refine ⟨rfl, ?_⟩
    have hchain : List.Chain' lbRel (e :: rest) := hs.chain'
    have : denseFrom 1 1 (entryKey e) (rankLoop 1 e.totalPoints e.achieved 1 rest) := by
      have := rankLoop_dense rest 1 e.totalPoints e.achieved 1 hchain.tail
        (by
          intro e' he'
          cases rest with
          | nil => simp at he'
          | cons f fs =>
            simp only [List.head?_cons, Option.mem_def, Option.some.injEq] at he'
            subst he'
            have := List.chain'_cons.mp hchain |>.1
            simpa [lbRel, entryKey] using this)
        (Nat.le_refl 1)
      simpa [entryKey] using this
    exact this

/-- The part_001 monthly pipeline produces output sorted by (total desc,
achieved desc) whose ranks are dense-competition: the first entry has rank
1, an entry receives the same rank as its predecessor iff it equals the
predecessor on both total points and achieved count, and otherwise its rank
equals its 1-based position in the sorted sequence. -/
lemma monthly_sorted_dense_001 (ch : Challenge) (monthKey : String)
    (users : List MUser) (out : List RankedEntry)
    (h : monthlyLeaderboard001 ch monthKey users = .ok out) :
    List.Sorted lbRel (out.map (·.entry)) ∧ DenseRanked out := by
  unfold monthlyLeaderboard001 at h
  cases hb : buildEntries001 ch monthKey users with
  | error e =>
    rw [hb] at h
    simp [Except.map] at h
  | ok l =>
    rw [hb] at h
    simp only [Except.map, Except.ok.injEq] at h
    subst h
    constructor
    · rw [assignRanks_map_entry]
      exact List.sorted_insertionSort lbRel l
    · exact assignRanks_dense _ (List.sorted_insertionSort lbRel l)

/-- C1 counterexample: the monthly leaderboard computed by the part_000
draft (whose sort at line 267 compares totalPoints only, and which assigns
no ranks at all) for two users tied on total points 3 with achieved counts
2 and 5 keeps them in encounter order, so the adjacent pair violates the
claimed (total desc, achieved desc) order: the claim as stated is false of
this computed monthly leaderboard. -/
theorem monthly_rank_counterexample :
    monthlyLeaderboard000 exCh exKey [exTieLow, exTieHigh] =
      [exTieLowEntry, exTieHighEntry] ∧
    exTieLowEntry.achieved < exTieHighEntry.achieved ∧
    ¬ lbRel exTieLowEntry exTieHighEntry := by
  refine ⟨?_, ?_, ?_⟩ <;> decide

/-- C1 amended: only the part_001 monthly leaderboard is sorted by total
points descending with ties broken by achieved-count descending and carries
dense-competition ranks (first entry rank 1, same rank as the predecessor
iff equal on both keys, otherwise rank = 1-based position); the part_000 and
standalone-api.js monthly leaderboards are sorted by total points descending
only — ties may appear in any achieved order — and assign no ranks. -/
theorem monthly_sort_rank_per_draft :
    (∀ (ch : Challenge) (monthKey : String) (users : List MUser) (out : List RankedEntry),
      monthlyLeaderboard001 ch monthKey users = .ok out →
        List.Sorted lbRel (out.map (·.entry)) ∧ DenseRanked out) ∧
    (∀ (ch : Challenge) (monthKey : String) (users : List MUser),
      List.Sorted lbRelTotal (monthlyLeaderboard000 ch monthKey users)) ∧
    (∀ (ch : Challenge) (monthKey : String) (users : List SAUser),
      List.Sorted saRel (monthlyLeaderboardSA ch monthKey users)) := by
  refine ⟨monthly_sorted_dense_001, ?_, ?_⟩
  · intro ch monthKey users
    exact List.sorted_insertionSort lbRelTotal (buildEntries000 ch monthKey users)
  · intro ch monthKey users
    exact List.sorted_insertionSort saRel
      ((users.map (mkSAEntry ch monthKey)).filter (fun e => 0 < e.totalPoints))

/-- C1 amended witness: the theorem applied to concrete inputs — the
part_001 pipeline on the two-user example, with its cache-shaped hypothesis
discharged by evaluation, and the part_000 pipeline on the tied pair. -/
theorem monthly_sort_rank_per_draft_witness :
    (List.Sorted lbRel (exOut.map (·.entry)) ∧ DenseRanked exOut) ∧
    List.Sorted lbRelTotal (monthlyLeaderboard000 exCh exKey [exTieLow, exTieHigh]) :=
  ⟨monthly_sort_rank_per_draft.1 exCh exKey exUsers exOut (by decide),
   monthly_sort_rank_per_draft.2.1 exCh exKey [exTieLow, exTieHigh]⟩

/-- Emitted part_001 rows always carry a positive total (the
`totalPoints === 0` guard of lines 243-246 skips the user). -/
lemma processUser001_pos (ch : Challenge) (monthKey : String) (u : MUser)
    (e : LeaderboardEntry) (h : processUser001 ch monthKey u = .ok (some e)) :
    0 < e.totalPoints := by
  unfold processUser001 at h
  cases hm : u.monthlyChallenges with
  | none =>
    rw [hm] at h
    exact absurd h (by simp)
  | some mc =>
    rw [hm] at h
    dsimp only at h
    rcases hs : (if ch.shadow_challange_revealed then
        match u.shadowChallenges with
        | none => Except.error JsError.typeError
        | some sc => Except.ok (((List.lookup monthKey sc).bind (·.progress)).getD 0)
      else Except.ok 0) with e' | sp
    · rw [hs] at h
      exact absurd h (by simp)
    · rw [hs] at h
      dsimp only at h
      split_ifs at h with h0
      · exact absurd h (by simp)
      · simp only [Except.ok.injEq, Option.some.injEq] at h
        subst h
        show 0 < ((List.lookup monthKey mc).bind (·.progress)).getD 0 + sp
        omega

/-- Part_001 per-user loop: every row of a successful build has positive
total points. -/
lemma buildEntries001_pos (ch : Challenge) (monthKey : String) :
    ∀ (users : List MUser) (l : List LeaderboardEntry),
      buildEntries001 ch monthKey users = .ok l → ∀ e ∈ l, 0 < e.totalPoints := by
  intro users
  induction users with
  | nil =>
    intro l h e he
    simp only [buildEntries001, Except.ok.injEq] at h
    subst h
    simp at he
  | cons u rest ih =>
    intro l h e he
    unfold buildEntries001 at h
    rcases hp : processUser001 ch monthKey u with err | o
    · rw [hp] at h
      exact absurd h (by simp)
    · rw [hp] at h
      cases o with
      | none => exact ih l h e he
      | some entry =>
        dsimp only at h
        rcases hb : buildEntries001 ch monthKey rest with err | l' <;> rw [hb] at h
        · exact absurd h (by simp [Except.map])
        · simp only [Except.map, Except.ok.injEq] at h
          subst h
          rcases List.mem_cons.mp he with rfl | he'
          · exact processUser001_pos ch monthKey u e hp
          · exact ih l' hb e he'

/-- C2: a user whose computed total points are exactly 0 is skipped by the
part_001 loop (`.ok none`, no row at all), every row of a successfully
computed part_001 leaderboard has total points strictly greater than 0, and
every row surviving the `filter(entry => entry.totalPoints > 0)` of
standalone-api.js likewise has positive total. -/
theorem monthly_zero_total_excluded :
    (∀ (ch : Challenge) (monthKey : String) (users : List MUser) (out : List RankedEntry),
      monthlyLeaderboard001 ch monthKey users = .ok out →
        ∀ r ∈ out, 0 < r.entry.totalPoints) ∧
    (∀ (ch : Challenge) (monthKey : String) (u : MUser) (e : LeaderboardEntry),
      processUser001 ch monthKey u = .ok (some e) → 0 < e.totalPoints) ∧
    (∀ (ch : Challenge) (monthKey : String) (users : List SAUser),
      ∀ e ∈ monthlyLeaderboardSA ch monthKey users, 0 < e.totalPoints) := by
  refine ⟨?_, processUser001_pos, ?_⟩
  · intro ch monthKey users out h r hr
    unfold monthlyLeaderboard001 at h
    rcases hb : buildEntries001 ch monthKey users with err | l <;> rw [hb] at h
    · exact absurd h (by simp [Except.map])
    · simp only [Except.map, Except.ok.injEq] at h
      subst h
      have hmem : r.entry ∈ (assignRanks (List.insertionSort lbRel l)).map (·.entry) :=
        List.mem_map_of_mem _ hr
      rw [assignRanks_map_entry] at hmem
      rw [List.mem_insertionSort] at hmem
      exact buildEntries001_pos ch monthKey users l hb r.entry hmem
  · intro ch monthKey users e he
    unfold monthlyLeaderboardSA at he
    rw [List.mem_insertionSort] at he
    have := (List.mem_filter.mp he).2
    simpa using this

/-- C2 witness: the theorem applied to the concrete two-user input. -/
theorem monthly_zero_total_excluded_witness :
    0 < (⟨exAliceEntry, 1⟩ : RankedEntry).entry.totalPoints :=
  monthly_zero_total_excluded.1 exCh exKey exUsers exOut (by decide)
    ⟨exAliceEntry, 1⟩ (by decide)

/-- C9 counterexample: with the part_001 loop (no per-user guard), a single
user whose challenge maps are missing makes the whole computation abort with
a TypeError — the other user's row is lost — whereas the same input without
the malformed user succeeds. -/
theorem malformed_record_counterexample :
    buildEntries001 exCh exKey [exAlice] = .ok [exAliceEntry] ∧
    buildEntries001 exCh exKey [exAlice, exBadBob] = .error .typeError := by
  constructor <;> decide

/-- A fully malformed record (both challenge maps missing) yields no row in
the guarded part_000 loop. -/
lemma processUser000_malformed (ch : Challenge) (monthKey : String) (u : MUser)
    (h1 : u.monthlyChallenges = none) (h2 : u.shadowChallenges = none) :
    processUser000 ch monthKey u = none := by
  unfold processUser000
  rw [h1, h2]
  cases ch.shadow_challange_revealed <;> simp

/-- C9 amended: in the guarded draft (part_000, per-user try/catch and map
guards) a malformed user record is skipped — the computation over the
remaining users completes unchanged — while in the unguarded draft
(part_001) a malformed user record aborts the whole computation with a
TypeError. -/
theorem malformed_record_amended (ch : Challenge) (monthKey : String)
    (l1 l2 : List MUser) (u : MUser)
    (h1 : u.monthlyChallenges = none) (h2 : u.shadowChallenges = none) :
    buildEntries000 ch monthKey (l1 ++ u :: l2) = buildEntries000 ch monthKey (l1 ++ l2) ∧
    (∀ rest : List MUser, buildEntries001 ch monthKey (u :: rest) = .error .typeError) := by
  constructor
  · unfold buildEntries000
    rw [List.filterMap_append, List.filterMap_append, List.filterMap_cons,
      processUser000_malformed ch monthKey u h1 h2]
  · intro rest
    unfold buildEntries001
    unfold processUser001
    rw [h1]

/-- C9 amended witness: the theorem applied to a concrete good/malformed
pair of users. -/
theorem malformed_record_amended_witness :
    buildEntries000 exCh exKey [exAlice, exBadBob] = buildEntries000 exCh exKey [exAlice] ∧
    buildEntries001 exCh exKey [exBadBob] = .error .typeError :=
  ⟨(malformed_record_amended exCh exKey [exAlice] [] exBadBob rfl rfl).1,
   (malformed_record_amended exCh exKey [exAlice] [] exBadBob rfl rfl).2 []⟩

/-- A successful character-list prefix test determines the corresponding
initial segment. -/
lemma isPrefixOf_take {p l : List Char} (h : List.isPrefixOf p l = true) :
    l.take p.length = p := by
  induction p generalizing l with
  | nil => simp
  | cons a p' ih =>
    cases l with
    | nil => simp [List.isPrefixOf] at h
    | cons b l' =>
      simp only [List.isPrefixOf, Bool.and_eq_true, beq_iff_eq] at h
      obtain ⟨rfl, h2⟩ := h
      simp [List.take_succ_cons, ih h2]

/-- For a 4-character year string, a key whose first four characters differ
fails the `startsWith` test. -/
lemma strStartsWith_false (k yStr : String) (hy : yStr.data.length = 4)
    (hk : k.data.take 4 ≠ yStr.data) : strStartsWith k yStr = false := by
  unfold strStartsWith
  by_contra h
  rw [Bool.not_eq_false] at h
  have ht := isPrefixOf_take h
  rw [hy] at ht
  exact hk ht

/-- A non-matching record leaves the monthly-challenge accumulator
unchanged. -/
lemma monthlyYearStep_skip (yStr : String) (st : YearStats) (kv : String × MonthData)
    (h : strStartsWith kv.1 yStr = false) : monthlyYearStep yStr st kv = st := by
  unfold monthlyYearStep
  simp [h]

/-- A non-matching record leaves the shadow-challenge accumulator
unchanged. -/
lemma shadowYearStep_skip (yStr : String) (st : YearStats) (kv : String × MonthData)
    (h : strStartsWith kv.1 yStr = false) : shadowYearStep yStr st kv = st := by
  unfold shadowYearStep
  simp [h]

/-- Dropping an element on which the fold's step acts as the identity does
not change a left fold. -/
lemma foldl_mid_id {α β : Type} (step : α → β → α) (x : β)
    (hx : ∀ st, step st x = st) (l1 l2 : List β) (st : α) :
    (l1 ++ x :: l2).foldl step st = (l1 ++ l2).foldl step st := by
  simp [List.foldl_append, List.foldl_cons, hx]

/-- The monthly-challenge fold sums exactly the progress values of the
records whose key starts with the year string. -/
lemma monthlyFold_points (yStr : String) :
    ∀ (l : List (String × MonthData)) (st : YearStats),
      (l.foldl (monthlyYearStep yStr) st).yearlyPoints =
        st.yearlyPoints +
          ((l.filter (fun kv => strStartsWith kv.1 yStr)).map
            (fun kv => kv.2.progress.getD 0)).sum := by
  intro l
  induction l with
  | nil => intro st; simp
  | cons kv rest ih =>
    intro st
    by_cases hp : strStartsWith kv.1 yStr = true
    · simp only [List.foldl_cons, List.filter_cons, hp, if_true, List.map_cons, List.sum_cons]
      rw [ih]
      unfold monthlyYearStep
      rw [hp]
      simp only [if_true]
      omega
    · rw [Bool.not_eq_true] at hp
      simp only [List.foldl_cons, List.filter_cons, hp, Bool.false_eq_true, if_false,
        monthlyYearStep_skip yStr st kv hp]
      exact ih st

/-- The shadow-challenge fold sums exactly the progress values of the
records whose key starts with the year string. -/
lemma shadowFold_points (yStr : String) :
    ∀ (l : List (String × MonthData)) (st : YearStats),
      (l.foldl (shadowYearStep yStr) st).yearlyPoints =
        st.yearlyPoints +
          ((l.filter (fun kv => strStartsWith kv.1 yStr)).map
            (fun kv => kv.2.progress.getD 0)).sum := by
  intro l
  induction l with
  | nil => intro st; simp
  | cons kv rest ih =>
    intro st
    by_cases hp : strStartsWith kv.1 yStr = true
    · simp only [List.foldl_cons, List.filter_cons, hp, if_true, List.map_cons, List.sum_cons]
      rw [ih]
      unfold shadowYearStep
      rw [hp]
      simp only [if_true]
      omega
    · rw [Bool.not_eq_true] at hp
      simp only [List.foldl_cons, List.filter_cons, hp, Bool.false_eq_true, if_false,
        shadowYearStep_skip yStr st kv hp]
      exact ih st

/-- C6: for every user and requested 4-digit year, the yearly accumulation
equals the sum of the primary-track and secondary-track progress values
whose period key starts with the year's decimal string, plus the award
points whose award year equals the requested year; and a record whose key
has any other 4-character year-prefix — or an award from another calendar
year — leaves the user's whole yearly stats (total and every tier count)
unchanged. -/
theorem yearly_accumulation_scoped (y : Nat) (u : YUser)
    (hy : (toString y).data.length = 4) :
    (yearlyPoints001 y u =
      ((u.monthlyChallenges.filter (fun kv => strStartsWith kv.1 (toString y))).map
        (fun kv => kv.2.progress.getD 0)).sum +
      ((u.shadowChallenges.filter (fun kv => strStartsWith kv.1 (toString y))).map
        (fun kv => kv.2.progress.getD 0)).sum +
      getCommunityPointsForYear u y) ∧
    (∀ (k : String) (v : MonthData) (l1 l2 sc : List (String × MonthData))
        (aw : List Award) (name did : String),
      k.data.take 4 ≠ (toString y).data →
      yearStats001 y ⟨name, did, l1 ++ (k, v) :: l2, sc, aw⟩ =
        yearStats001 y ⟨name, did, l1 ++ l2, sc, aw⟩) ∧
    (∀ (k : String) (v : MonthData) (mc l1 l2 : List (String × MonthData))
        (aw : List Award) (name did : String),
      k.data.take 4 ≠ (toString y).data →
      yearStats001 y ⟨name, did, mc, l1 ++ (k, v) :: l2, aw⟩ =
        yearStats001 y ⟨name, did, mc, l1 ++ l2, aw⟩) ∧
    (∀ (a : Award) (l1 l2 : List Award) (mc sc : List (String × MonthData))
        (name did : String),
      a.awardedYear ≠ y →
      yearStats001 y ⟨name, did, mc, sc, l1 ++ a :: l2⟩ =
        yearStats001 y ⟨name, did, mc, sc, l1 ++ l2⟩) := by
  refine ⟨?_, ?_, ?_, ?_⟩
  · unfold yearlyPoints001 yearStats001
    dsimp only
    rw [shadowFold_points, monthlyFold_points]
    dsimp only
    omega
  · intro k v l1 l2 sc aw name did hk
    have hskip : strStartsWith k (toString y) = false :=
      strStartsWith_false k (toString y) hy hk
    unfold yearStats001
    dsimp only
    rw [foldl_mid_id (monthlyYearStep (toString y)) (k, v)
      (fun st => monthlyYearStep_skip (toString y) st (k, v) hskip)]
    simp [getCommunityPointsForYear]
  · intro k v mc l1 l2 aw name did hk
    have hskip : strStartsWith k (toString y) = false :=
      strStartsWith_false k (toString y) hy hk
    unfold yearStats001
    dsimp only
    rw [foldl_mid_id (shadowYearStep (toString y)) (k, v)
      (fun st => shadowYearStep_skip (toString y) st (k, v) hskip)]
    simp [getCommunityPointsForYear]
  · intro a l1 l2 mc sc name did ha
    unfold yearStats001 getCommunityPointsForYear
    dsimp only
    rw [List.filter_append, List.filter_append, List.filter_cons]
    simp [ha]

/-- C6 witness: the theorem applied to the year 2025 and a record keyed to
2024. -/
theorem yearly_accumulation_scoped_witness :
    yearStats001 2025 ⟨"alice", "d1", [("2024-05-01", exMD)], [], []⟩ =
      yearStats001 2025 ⟨"alice", "d1", [], [], []⟩ :=
  (yearly_accumulation_scoped 2025 exYUser (by decide)).2.1 "2024-05-01" exMD
    [] [] [] [] "alice" "d1" (by decide)

/-- The mutation of part_001 lines 541-545 never changes an entry's game
id. -/
lemma bumpGame_gameId (username gameId : String) (g : GameEntry) :
    (bumpGame username gameId g).gameId = g.gameId := by
  unfold bumpGame
  split_ifs <;> rfl

/-- One grouping iteration adds exactly one to the tracked game's count and
leaves every other count unchanged. -/
lemma countOfGame_addNom (st : List GameEntry) (username : String) (nom : NomRecord)
    (g : String) :
    countOfGame g (addNomToGames st username nom) =
      countOfGame g st + (if nom.gameId = g then 1 else 0) := by
  have hpred : ((fun e : GameEntry => e.gameId == g) ∘ bumpGame username nom.gameId) =
      (fun e : GameEntry => e.gameId == g) := by
    funext x
    simp [Function.comp, bumpGame_gameId]
  unfold addNomToGames countOfGame
  by_cases hany : st.any (fun e => e.gameId == nom.gameId) = true
  · rw [if_pos hany, List.find?_map, hpred]
    cases hf : List.find? (fun e : GameEntry => e.gameId == g) st with
    | none =>
      by_cases hg : nom.gameId = g
      · exfalso
        obtain ⟨e, hmem, he⟩ := List.any_eq_true.mp hany
        rw [List.find?_eq_none] at hf
        apply hf e hmem
        rw [hg] at he
        exact he
      · simp [hg]
    | some e =>
      have heg : e.gameId = g := by
        have := List.find?_some hf
        simpa using this
      by_cases hg : nom.gameId = g
      · have hbeq : (e.gameId == nom.gameId) = true := by simp [heg, hg]
        simp [bumpGame, hbeq, heg, hg]
      · have hbeq : (e.gameId == nom.gameId) = false := by
          simp only [beq_eq_false_iff_ne, ne_eq, heg]
          intro hcon
          exact hg hcon.symm
        simp [bumpGame, hbeq, hg]
  · rw [if_neg hany, List.map_append, List.find?_append, List.find?_map, hpred]
    have hnone : ∀ x ∈ st, ¬ (x.gameId == nom.gameId) = true := by
      intro x hx hcon
      exact hany (List.any_eq_true.mpr ⟨x, hx, hcon⟩)
    by_cases hg : nom.gameId = g
    · have hfst : List.find? (fun e : GameEntry => e.gameId == g) st = none := by
        rw [List.find?_eq_none]
        intro x hx
        rw [← hg]
        exact hnone x hx
      rw [hfst]
      simp [bumpGame, hg]
    · cases hf : List.find? (fun e : GameEntry => e.gameId == g) st with
      | none =>
        have hbeq : (nom.gameId == g) = false := by simpa using hg
        simp [bumpGame, hbeq, hg]
      | some e =>
        have heg : e.gameId = g := by
          have := List.find?_some hf
          simpa using this
        have hbeq : (nom.gameId == g) = false := by simpa using hg
        have hbeq' : (e.gameId == nom.gameId) = false := by
          simp only [beq_eq_false_iff_ne, ne_eq, heg]
          intro hcon
          exact hg hcon.symm
        simp [bumpGame, hbeq, hbeq', hg]

/-- Folding the grouping over a pair stream counts, for each game, exactly
the pairs that mention it. -/
lemma countOfGame_fold (pairs : List (String × NomRecord)) :
    ∀ (st : List GameEntry) (g : String),
      countOfGame g (pairs.foldl (fun s p => addNomToGames s p.1 p.2) st) =
        countOfGame g st + pairs.countP (fun p => p.2.gameId == g) := by
  induction pairs with
  | nil =>
    intro st g
    simp
  | cons p rest ih =>
    intro st g
    simp only [List.foldl_cons, List.countP_cons]
    rw [ih, countOfGame_addNom]
    by_cases hg : p.2.gameId = g
    · simp [hg]
      omega
    · have : (p.2.gameId == g) = false := by simpa using hg
      simp [hg, this]

/-- The mutation of api/nominations.js lines 84-87 never changes a group's
key. -/
lemma bumpCarrd_title (username gameKey : String) (g : GameGroup) :
    (bumpCarrd username gameKey g).title = g.title := by
  unfold bumpCarrd
  split_ifs <;> rfl

/-- On the matching group, the mutation of lines 84-87 is exactly a
dedup-insert of the username. -/
lemma bumpCarrd_nominatedBy_match (u key : String) (g : GameGroup)
    (h : (g.title == key) = true) :
    (bumpCarrd u key g).nominatedBy = dedupInsert g.nominatedBy u := by
  unfold bumpCarrd dedupInsert
  rw [if_pos h]
  by_cases hm : u ∈ g.nominatedBy
  · rw [if_pos (by simpa using hm), if_pos hm]
  · rw [if_neg (by simpa using hm), if_neg hm]

/-- The mutation of lines 84-87 leaves non-matching groups unchanged. -/
lemma bumpCarrd_skip (u key : String) (g : GameGroup)
    (h : (g.title == key) = false) :
    bumpCarrd u key g = g := by
  unfold bumpCarrd
  rw [if_neg (by simp [h])]

/-- One carrd grouping iteration applies a dedup-insert of the username to
the tracked group's nominator list and leaves every other group unchanged. -/
lemma usersOfKey_addCarrd (st : List GameGroup) (nom : CarrdNom) (k : String) :
    usersOfKey k (addCarrd st nom) =
      if nom.gameTitle = k then dedupInsert (usersOfKey k st) nom.discordUsername
      else usersOfKey k st := by
  have hpred : ((fun e : GameGroup => e.title == k) ∘ bumpCarrd nom.discordUsername nom.gameTitle) =
      (fun e : GameGroup => e.title == k) := by
    funext x
    simp [Function.comp, bumpCarrd_title]
  unfold addCarrd usersOfKey
  by_cases hany : st.any (fun e => e.title == nom.gameTitle) = true
  · rw [if_pos hany, List.find?_map, hpred]
    cases hf : List.find? (fun e : GameGroup => e.title == k) st with
    | none =>
      by_cases hk : nom.gameTitle = k
      · exfalso
        obtain ⟨e, hmem, he⟩ := List.any_eq_true.mp hany
        rw [List.find?_eq_none] at hf
        apply hf e hmem
        rw [hk] at he
        exact he
      · simp [hk]
    | some e =>
      have hek : e.title = k := by
        have := List.find?_some hf
        simpa using this
      by_cases hk : nom.gameTitle = k
      · have hbeq : (e.title == nom.gameTitle) = true := by simp [hek, hk]
        rw [if_pos hk]
        show (bumpCarrd nom.discordUsername nom.gameTitle e).nominatedBy =
          dedupInsert e.nominatedBy nom.discordUsername
        rw [bumpCarrd_nominatedBy_match nom.discordUsername nom.gameTitle e hbeq]
      · have hbeq : (e.title == nom.gameTitle) = false := by
          simp only [beq_eq_false_iff_ne, ne_eq, hek]
          intro hcon
          exact hk hcon.symm
        simp [bumpCarrd, hbeq, hk]
  · rw [if_neg hany, List.map_append, List.find?_append, List.find?_map, hpred]
    have hnone : ∀ x ∈ st, ¬ (x.title == nom.gameTitle) = true := by
      intro x hx hcon
      exact hany (List.any_eq_true.mpr ⟨x, hx, hcon⟩)
    by_cases hk : nom.gameTitle = k
    · have hfst : List.find? (fun e : GameGroup => e.title == k) st = none := by
        rw [List.find?_eq_none]
        intro x hx
        rw [← hk]
        exact hnone x hx
      rw [hfst]
      simp [bumpCarrd, hk, dedupInsert]
    · cases hf : List.find? (fun e : GameGroup => e.title == k) st with
      | none =>
        have hbeq : (nom.gameTitle == k) = false := by simpa using hk
        simp [bumpCarrd, hbeq, hk]
      | some e =>
        have hek : e.title = k := by
          have := List.find?_some hf
          simpa using this
        have hbeq : (nom.gameTitle == k) = false := by simpa using hk
        have hbeq' : (e.title == nom.gameTitle) = false := by
          simp only [beq_eq_false_iff_ne, ne_eq, hek]
          intro hcon
          exact hk hcon.symm
        simp [bumpCarrd, hbeq, hbeq', hk]

/-- The carrd grouping keeps `count` equal to the length of the (dedup'd)
nominator list. -/
lemma addCarrd_inv (st : List GameGroup) (nom : CarrdNom)
    (h : ∀ g ∈ st, g.count = g.nominatedBy.length) :
    ∀ g ∈ addCarrd st nom, g.count = g.nominatedBy.length := by
  intro g hg
  unfold addCarrd at hg
  rw [List.mem_map] at hg
  obtain ⟨x, hx, rfl⟩ := hg
  have hxinv : x.count = x.nominatedBy.length := by
    by_cases hany : st.any (fun e => e.title == nom.gameTitle) = true
    · rw [if_pos hany] at hx
      exact h x hx
    · rw [if_neg hany] at hx
      rcases List.mem_append.mp hx with hx' | hx'
      · exact h x hx'
      · simp only [List.mem_singleton] at hx'
        subst hx'
        rfl
  unfold bumpCarrd
  split_ifs <;> simp [hxinv]

/-- The count/nominator-length invariant holds of every fold result. -/
lemma gameGroups_inv (noms : List CarrdNom) :
    ∀ st, (∀ g ∈ st, g.count = g.nominatedBy.length) →
      ∀ g ∈ noms.foldl addCarrd st, g.count = g.nominatedBy.length := by
  induction noms with
  | nil =>
    intro st h
    simpa using h
  | cons n rest ih =>
    intro st h
    simp only [List.foldl_cons]
    exact ih _ (addCarrd_inv st n h)

/-- Under the invariant, a group's count reads off the length of its
nominator list. -/
lemma countOfKey_eq_usersOfKey_length (st : List GameGroup) (k : String)
    (h : ∀ g ∈ st, g.count = g.nominatedBy.length) :
    countOfKey k st = (usersOfKey k st).length := by
  unfold countOfKey usersOfKey
  cases hf : List.find? (fun g => g.title == k) st with
  | none => simp
  | some e =>
    have := h e (List.mem_of_find?_eq_some hf)
    simp [this]

/-- Folding the carrd grouping dedup-inserts, for each key, exactly the
usernames of the nominations carrying that key. -/
lemma usersOfKey_fold (noms : List CarrdNom) :
    ∀ (st : List GameGroup) (k : String),
      usersOfKey k (noms.foldl addCarrd st) =
        ((noms.filter (fun n => n.gameTitle == k)).map (·.discordUsername)).foldl
          dedupInsert (usersOfKey k st) := by
  induction noms with
  | nil =>
    intro st k
    simp
  | cons n rest ih =>
    intro st k
    by_cases hk : n.gameTitle = k
    · have hb : (n.gameTitle == k) = true := by simpa using hk
      simp only [List.foldl_cons, List.filter_cons, hb, if_true, List.map_cons]
      rw [ih, usersOfKey_addCarrd, if_pos hk]
    · have hb : (n.gameTitle == k) = false := by simpa using hk
      simp only [List.foldl_cons, List.filter_cons, hb, Bool.false_eq_true, if_false]
      rw [ih, usersOfKey_addCarrd, if_neg hk]

lemma dedupInsert_nodup (acc : List String) (u : String) (h : acc.Nodup) :
    (dedupInsert acc u).Nodup := by
  unfold dedupInsert
  split_ifs with hm
  · exact h
  · simp [List.nodup_append, h, hm]

lemma mem_dedupInsert (acc : List String) (u x : String) :
    x ∈ dedupInsert acc u ↔ x ∈ acc ∨ x = u := by
  unfold dedupInsert
  split_ifs with hm
  · constructor
    · exact Or.inl
    · rintro (hx | rfl)
      · exact hx
      · exact hm
  · simp

lemma ddFold_nodup (us : List String) :
    ∀ acc, acc.Nodup → (us.foldl dedupInsert acc).Nodup := by
  induction us with
  | nil =>
    intro acc h
    simpa using h
  | cons u rest ih =>
    intro acc h
    simp only [List.foldl_cons]
    exact ih _ (dedupInsert_nodup acc u h)

lemma mem_ddFold (us : List String) :
    ∀ acc x, x ∈ us.foldl dedupInsert acc ↔ x ∈ acc ∨ x ∈ us := by
  induction us with
  | nil =>
    intro acc x
    simp
  | cons u rest ih =>
    intro acc x
    simp only [List.foldl_cons]
    rw [ih, mem_dedupInsert]
    simp [List.mem_cons, or_assoc]

/-- The dedup-insert fold computes a list whose length is the number of
distinct elements of the input. -/
lemma ddFold_length (us : List String) :
    (us.foldl dedupInsert []).length = us.toFinset.card := by
  have hnd : (us.foldl dedupInsert []).Nodup := ddFold_nodup us [] (by simp)
  have hts : (us.foldl dedupInsert []).toFinset = us.toFinset := by
    ext x
    rw [List.mem_toFinset, List.mem_toFinset, mem_ddFold]
    simp
  rw [← hts, List.toFinset_card_of_nodup hnd]

/-- C7 counterexample: one user who nominated the same game twice in the
current period.  In the standalone report (part_001) the popularity count
attached to the game is 2 — the number of nominations, not the number of
distinct users, which is 1 — so the claimed equality fails. -/
theorem nomination_popularity_counterexample :
    countOfGame "g1" (nominationsByGame [exNomUser] 3 2025) = 2 ∧
    (((nominationsFlat [exNomUser] 3 2025).filter (fun f => f.gameId == "g1")).map
      (·.username)).toFinset.card = 1 ∧
    countOfGame "g1" (nominationsByGame [exNomUser] 3 2025) ≠
      (((nominationsFlat [exNomUser] 3 2025).filter (fun f => f.gameId == "g1")).map
        (·.username)).toFinset.card := by
  refine ⟨?_, ?_, ?_⟩ <;> decide

/-- C7 amended: in the standalone drafts the popularity count attached to a
game equals the number of current-period nominations of that game in the
flat list — duplicates by the same user included — while the nominator list
is deduplicated; in the carrd-format draft the nomination count equals the
number of distinct users with at least one nomination carrying the game's
key, which never exceeds the flat count for that key. -/
theorem nomination_popularity_amended :
    (∀ (users : List NomUser) (m y : Nat) (g : String),
      countOfGame g (nominationsByGame users m y) =
        ((nominationsFlat users m y).filter (fun f => f.gameId == g)).length) ∧
    (∀ (noms : List CarrdNom) (k : String),
      countOfKey k (gameGroups noms) =
        ((noms.filter (fun n => n.gameTitle == k)).map (·.discordUsername)).toFinset.card) ∧
    (∀ (noms : List CarrdNom) (k : String),
      ((noms.filter (fun n => n.gameTitle == k)).map (·.discordUsername)).toFinset.card ≤
        ((noms.filter (fun n => n.gameTitle == k)).map (·.discordUsername)).length) := by
  refine ⟨?_, ?_, ?_⟩
  · intro users m y g
    unfold nominationsByGame nominationsFlat
    rw [countOfGame_fold]
    have h0 : countOfGame g [] = 0 := rfl
    rw [h0, List.countP_eq_length_filter, List.filter_map, List.length_map]
    have hpred : ((fun f : FlatNom => f.gameId == g) ∘
        (fun p : String × NomRecord =>
          (⟨p.1, p.2.gameId, p.2.gameTitle.getD "Unknown Game",
            p.2.consoleName.getD "Unknown Console", p.2.month, p.2.year⟩ : FlatNom))) =
        (fun p : String × NomRecord => p.2.gameId == g) := by
      funext p
      rfl
    rw [hpred]
    omega
  · intro noms k
    unfold gameGroups
    have hinv := gameGroups_inv noms [] (by simp)
    rw [countOfKey_eq_usersOfKey_length _ k hinv, usersOfKey_fold]
    have h0 : usersOfKey k ([] : List GameGroup) = [] := rfl
    rw [h0, ddFold_length]
  · intro noms k
    exact List.toFinset_card_le _

/-- C8 counterexample: with the external store unreachable, the
api/leaderboard.js draft responds HTTP 200 with non-empty hardcoded
rankings, the pages/api/nominations.js draft responds HTTP 200 with
non-empty mock nomination groups, and the api/nominations.js draft responds
HTTP 200 with an empty payload presented as success — none of them
surfaces a 5xx status. -/
theorem store_failure_counterexample :
    apiLeaderboardOnStoreFailure.status = 200 ∧
    apiLeaderboardOnStoreFailure.rankings = hardcodedRankings ∧
    hardcodedRankings ≠ [] ∧
    pagesNominationsOnStoreFailure.status = 200 ∧
    pagesNominationsOnStoreFailure.mockGroups ≠ [] ∧
    apiNominationsOnStoreFailure.status = 200 ∧
    ¬ 500 ≤ apiLeaderboardOnStoreFailure.status := by
  refine ⟨rfl, rfl, ?_, rfl, ?_, rfl, ?_⟩ <;> decide

/-- C8 amended: only the standalone-api.js read endpoints surface an HTTP
500 with a plain error body and no payload when the store is unreachable;
the earlier serverless drafts return HTTP 200 with a fabricated fallback
payload instead. -/
theorem store_failure_amended :
    standaloneMonthlyOnStoreFailure.status = 500 ∧
    standaloneYearlyOnStoreFailure.status = 500 ∧
    standaloneNominationsOnStoreFailure.status = 500 ∧
    standaloneMonthlyOnStoreFailure.error = "Internal server error" ∧
    standaloneYearlyOnStoreFailure.error = "Internal server error" ∧
    standaloneNominationsOnStoreFailure.error = "Internal server error" :=
  ⟨rfl, rfl, rfl, rfl, rfl, rfl⟩

/-- C10: getCurrentNominations is total by construction; every returned
nomination carries a valid date equal to the reference clock's current
month and year (hence a nomination whose `nominatedAt` is missing or not a
`Date` is silently excluded), the result is a sublist of the user's
nominations, and a user without a nominations array yields `[]`. -/
theorem getCurrentNominations_total (u : CUser) (m y : Nat) :
    (∀ nom ∈ getCurrentNominations u m y, nom.nominatedAt = .date m y) ∧
    (∀ l, u.nominations = some l → ∀ nom ∈ getCurrentNominations u m y, nom ∈ l) ∧
    (u.nominations = none → getCurrentNominations u m y = []) := by
  refine ⟨?_, ?_, ?_⟩
  · intro nom hmem
    unfold getCurrentNominations at hmem
    cases hn : u.nominations with
    | none =>
      rw [hn] at hmem
      simp at hmem
    | some l =>
      rw [hn] at hmem
      have hp := (List.mem_filter.mp hmem).2
      cases hd : nom.nominatedAt with
      | missing =>
        rw [hd] at hp
        simp at hp
      | notDate =>
        rw [hd] at hp
        simp at hp
      | date m' y' =>
        rw [hd] at hp
        simp only [Bool.and_eq_true, beq_iff_eq] at hp
        rw [hp.1, hp.2]
  · intro l hl nom hmem
    unfold getCurrentNominations at hmem
    rw [hl] at hmem
    exact (List.mem_filter.mp hmem).1
  · intro hn
    unfold getCurrentNominations
    rw [hn]

/-- C10 witness: the theorem applied to a concrete user whose list holds one
valid March 2025 nomination and one record without a date. -/
theorem getCurrentNominations_total_witness :
    exCNom.nominatedAt = NomDate.date 3 2025 :=
  (getCurrentNominations_total exCUser 3 2025).1 exCNom (by decide)

end SelectStart
